import Mathlib

/-!
Shallow embedding of the rift key-combination capture scripts
(`scripts/generate_key_combos.py`, `scripts/retry_failed_combos.py`)
and proofs about the specification's claims.

Pure Python functions are translated to Lean functions; the orchestrator
`main` entry points, whose behaviour depends on the filesystem, the user's
console input and the external capture helper, are modelled as pure
functions of an explicit environment record carrying those inputs.
All string operations are modelled on the ASCII fragment actually used by
the scripts (key names, labels, hex renderings).
-/

set_option maxRecDepth 16000

namespace Rift

/-! ### Python string primitives (ASCII fragment) -/

/-- Python `str.isalpha()`: non-empty and every character alphabetic. -/
def pyIsAlpha (s : String) : Bool :=
  !s.isEmpty && s.data.all Char.isAlpha

/-- Python `str.isalnum()`: non-empty and every character alphanumeric. -/
def pyIsAlnum (s : String) : Bool :=
  !s.isEmpty && s.data.all Char.isAlphanum

/-- Python `str.upper()` on ASCII strings. -/
def pyUpper (s : String) : String :=
  ⟨s.data.map Char.toUpper⟩

/-- Python `str.lower()` on ASCII strings. -/
def pyLower (s : String) : String :=
  ⟨s.data.map Char.toLower⟩

/-- Python `str.strip()`: remove leading and trailing whitespace. -/
def pyStrip (s : String) : String :=
  ⟨(s.data.dropWhile Char.isWhitespace).reverse.dropWhile Char.isWhitespace |>.reverse⟩

/-- Python `sep.join(parts)`. -/
def pyJoin (sep : String) : List String → String
  | [] => ""
  | [x] => x
  | x :: xs => x ++ sep ++ pyJoin sep xs

/-- Python `s.startswith(pre)`. -/
def pyStartsWith (s pre : String) : Bool :=
  pre.data.isPrefixOf s.data

/-- Python `s[1:]`: drop the first character. -/
def pyDropFirst (s : String) : String :=
  ⟨s.data.drop 1⟩

/-- Python `int(s)` on the strings this program feeds it (an optional sign
followed by decimal digits, surrounding whitespace stripped); `none` models
the `ValueError` raised on anything else. -/
def pyInt (s : String) : Option Int :=
  let t := (pyStrip s).data
  let core : List Char → Option Nat := fun ds =>
    if ds.isEmpty then none
    else if ds.all Char.isDigit then
      some (ds.foldl (fun acc c => acc * 10 + (c.toNat - 48)) 0)
    else none
  match t with
  | '+' :: rest => (core rest).map Int.ofNat
  | '-' :: rest => (core rest).map (fun n => -(Int.ofNat n))
  | _ => (core t).map Int.ofNat

/-! ### The fixed catalogs (`US_KEYS`, `MODIFIERS`) -/

/-- The `US_KEYS` list from `generate_key_combos.py`: the fixed key-name catalog. -/
def US_KEYS : List String := [
  "a", "b", "c", "d", "e", "f", "g", "h", "i", "j", "k", "l", "m",
  "n", "o", "p", "q", "r", "s", "t", "u", "v", "w", "x", "y", "z",
  "0", "1", "2", "3", "4", "5", "6", "7", "8", "9",
  "`", "-", "=", "[", "]", "\\", ";", "\x27", ",", ".", "/",
  "space", "enter", "tab", "backspace", "escape",
  "up", "down", "left", "right",
  "f1", "f2", "f3", "f4", "f5", "f6", "f7", "f8", "f9", "f10", "f11", "f12",
  "home", "end", "page up", "page down", "insert", "delete"]

/-- The `MODIFIERS` list from `generate_key_combos.py`: the 8 `(ctrl, shift, alt)`
modifier states. -/
def MODIFIERS : List (Bool × Bool × Bool) := [
  (false, false, false),
  (true, false, false),
  (false, true, false),
  (false, false, true),
  (true, true, false),
  (true, false, true),
  (false, true, true),
  (true, true, true)]

/-! ### Key Mapper (`map_key_to_pynput`) -/

/-- The value space of `map_key_to_pynput`: pynput `Key` symbolic constants
(special keys and function keys) and `KeyCode.from_char` values. -/
inductive PynputKey where
  | special : String → PynputKey
  | fkey : Nat → PynputKey
  | keyCode : String → PynputKey
deriving DecidableEq, Repr

/-- The `special_map` dictionary in `map_key_to_pynput`, as an association
list; the payload is the name of the pynput `Key` constant. -/
def special_map : List (String × PynputKey) := [
  ("space", .special "space"),
  ("enter", .special "enter"),
  ("tab", .special "tab"),
  ("backspace", .special "backspace"),
  ("escape", .special "esc"),
  ("up", .special "up"),
  ("down", .special "down"),
  ("left", .special "left"),
  ("right", .special "right"),
  ("home", .special "home"),
  ("end", .special "end"),
  ("page up", .special "page_up"),
  ("page down", .special "page_down"),
  ("insert", .special "insert"),
  ("delete", .special "delete")]

/-- The `symbol_map` dictionary in `map_key_to_pynput` (each symbol maps to
itself). -/
def symbol_map : List (String × String) := [
  ("`", "`"), ("-", "-"), ("=", "="), ("[", "["), ("]", "]"), ("\\", "\\"),
  (";", ";"), ("\x27", "\x27"), (",", ","), (".", "."), ("/", "/")]

/-- Association-list lookup, modelling Python `dict` access. -/
def alistLookup (m : List (String × α)) (k : String) : Option α :=
  match m with
  | [] => none
  | (k0, v) :: rest => if k = k0 then some v else alistLookup rest k

/-- Function `map_key_to_pynput` from `generate_key_combos.py`: special-map lookup,
then the `f`-prefixed numeric-suffix branch (valid for 1–12, falling through
on a parse failure or an out-of-range number), then the `isalnum` branch
(letters lower-cased), then the symbol map; `none` models Python `None`. -/
def map_key_to_pynput (key : String) : Option PynputKey :=
  match alistLookup special_map key with
  | some v => some v
  | none =>
    let fbranch : Option PynputKey :=
      if pyStartsWith key "f" then
        match pyInt (pyDropFirst key) with
        | some num => if 1 ≤ num ∧ num ≤ 12 then some (.fkey num.toNat) else none
        | none => none
      else none
    match fbranch with
    | some v => some v
    | none =>
      if pyIsAlnum key then
        some (.keyCode (if pyIsAlpha key then pyLower key else key))
      else
        match alistLookup symbol_map key with
        | some ch => if ch.length = 1 then some (.keyCode ch) else none
        | none => none

/-! ### Combination space and labels -/

/-- A Combination key: `(key, ctrl, shift, alt)`, the natural key of the
system (`retry_failed_combos.py` represents it as this 4-tuple). -/
abbrev ComboKey := String × Bool × Bool × Bool

/-- Function `generate_all_combinations` from `retry_failed_combos.py`: the nested
loop over `US_KEYS` and `MODIFIERS`, appending `(key, ctrl, shift, alt)`. -/
def generate_all_combinations : List ComboKey :=
  US_KEYS.flatMap fun key => MODIFIERS.map fun m => (key, m)

/-- Function `find_failed_combinations` from `retry_failed_combos.py`: the list
comprehension keeping every combination not in the existing set.  The Python
`set` argument is modelled by a list used only through membership. -/
def find_failed_combinations (existing : List ComboKey) : List ComboKey :=
  generate_all_combinations.filter (fun combo => !(existing.contains combo))

/-- Function `format_combo_str` from `retry_failed_combos.py`: modifier names in the
fixed Ctrl, Shift, Alt order, the key upper-cased when alphabetic, joined by
`+`. -/
def format_combo_str (key : String) (ctrl shift alt : Bool) : String :=
  let combo_name : List String :=
    (if ctrl then ["Ctrl"] else []) ++
    (if shift then ["Shift"] else []) ++
    (if alt then ["Alt"] else []) ++
    [if pyIsAlpha key then pyUpper key else key]
  pyJoin "+" combo_name

/-- The inline `combo_name`/`combo_str` label construction inside
`generate_combinations` in `generate_key_combos.py` (lines 365–373). -/
def sweep_combo_label (key : String) (ctrl shift alt : Bool) : String :=
  let combo_name : List String :=
    (if ctrl then ["Ctrl"] else []) ++
    (if shift then ["Shift"] else []) ++
    (if alt then ["Alt"] else []) ++
    [if pyIsAlpha key then pyUpper key else key]
  pyJoin "+" combo_name

/-! ### Hex renderings (Python format specs `0x{v:02X}`, `0x{v:04X}`) -/

/-- One upper-case hexadecimal digit. -/
def hexDigit (n : Nat) : Char :=
  if n < 10 then Char.ofNat (48 + n) else Char.ofNat (55 + n)

/-- Hexadecimal digits of `n`, most significant first (empty for 0);
the first argument is structural fuel, always called with fuel ≥ n. -/
def hexDigitsAux : Nat → Nat → List Char
  | 0, _ => []
  | fuel + 1, n =>
    if n = 0 then [] else hexDigitsAux fuel (n / 16) ++ [hexDigit (n % 16)]

/-- Python `f"0x{v:wX}"`: upper-case hex, zero-padded to width `w`. -/
def pyHex (w : Nat) (v : Nat) : String :=
  let ds := if v = 0 then ['0'] else hexDigitsAux v v
  "0x" ++ ⟨List.replicate (w - ds.length) '0' ++ ds⟩

/-! ### Capture records -/

/-- The parsed JSON output of one successful run of the capture helper:
field `vk`, and the optional fields `ascii` and `unicode`
(`captured.get(...)` yields `none` when a field is absent). -/
structure Captured where
  vk : Nat
  ascii : Option Nat
  unicode : Option Nat
deriving DecidableEq, Repr

/-- One entry of the persisted `combinations` array (the `result` dict both
orchestrators build on a successful capture). -/
structure CaptureRecord where
  key : String
  ctrl : Bool
  shift : Bool
  alt : Bool
  combo : String
  vk : String
  vk_decimal : Nat
  ascii : Option Nat
  unicode : Option Nat
  ascii_hex : Option String
  unicode_hex : Option String
deriving DecidableEq, Repr

/-- Python truthiness of `captured.get(field)`: false for `None` and 0. -/
def pyTruthy : Option Nat → Bool
  | none => false
  | some n => n != 0

/-- The `result` dict literal in `generate_combinations`
(`generate_key_combos.py` lines 381–395): hex fields rendered only when the
corresponding value is truthy, `None` otherwise. -/
def mkSweepRecord (key : String) (ctrl shift alt : Bool) (combo_str : String)
    (captured : Captured) : CaptureRecord where
  key := key
  ctrl := ctrl
  shift := shift
  alt := alt
  combo := combo_str
  vk := pyHex 2 captured.vk
  vk_decimal := captured.vk
  ascii := captured.ascii
  unicode := captured.unicode
  ascii_hex :=
    if pyTruthy captured.ascii then some (pyHex 2 (captured.ascii.getD 0)) else none
  unicode_hex :=
    if pyTruthy captured.unicode then some (pyHex 4 (captured.unicode.getD 0)) else none

/-- The `result` dict literal in `retry_failed_combinations`
(`retry_failed_combos.py` lines 118–132); textually identical to the one in
`generate_combinations`. -/
def mkRetryRecord (key : String) (ctrl shift alt : Bool) (combo_str : String)
    (captured : Captured) : CaptureRecord where
  key := key
  ctrl := ctrl
  shift := shift
  alt := alt
  combo := combo_str
  vk := pyHex 2 captured.vk
  vk_decimal := captured.vk
  ascii := captured.ascii
  unicode := captured.unicode
  ascii_hex :=
    if pyTruthy captured.ascii then some (pyHex 2 (captured.ascii.getD 0)) else none
  unicode_hex :=
    if pyTruthy captured.unicode then some (pyHex 4 (captured.unicode.getD 0)) else none

/-- The Combination key `(key, ctrl, shift, alt)` of a record, as built by
`merge_results` and `load_existing_combinations`. -/
def comboKey (r : CaptureRecord) : ComboKey :=
  (r.key, r.ctrl, r.shift, r.alt)

/-! ### Capture loops -/

/-- The outcome of `capture_key_combo` for one combination: `some` parsed
helper output on success, `none` on any of its failure paths (unmapped key,
timeout, empty output, parse failure).  The Capture Session Driver's real
timing and process behaviour is abstracted into this function, which an
environment supplies. -/
abbrev CaptureFun := String → Bool → Bool → Bool → Option Captured

/-- Function `generate_combinations` from `generate_key_combos.py`: iterate the full
key/modifier space, keep a record for every successful capture. -/
def generate_combinations (capture : CaptureFun) : List CaptureRecord :=
  US_KEYS.flatMap fun key =>
    MODIFIERS.filterMap fun m =>
      let combo_str := sweep_combo_label key m.1 m.2.1 m.2.2
      (capture key m.1 m.2.1 m.2.2).map fun captured =>
        mkSweepRecord key m.1 m.2.1 m.2.2 combo_str captured

/-- Function `retry_failed_combinations` from `retry_failed_combos.py`: iterate the
failed list, keep a record for every successful capture. -/
def retry_failed_combinations (capture : CaptureFun)
    (failed_combos : List ComboKey) : List CaptureRecord :=
  failed_combos.filterMap fun q =>
    let combo_str := format_combo_str q.1 q.2.1 q.2.2.1 q.2.2.2
    (capture q.1 q.2.1 q.2.2.1 q.2.2.2).map fun captured =>
      mkRetryRecord q.1 q.2.1 q.2.2.1 q.2.2.2 combo_str captured

/-! ### Result Store merge -/

/-- The dedup-append loop of `merge_results` (`retry_failed_combos.py`
lines 171–180): walk the new records, appending each whose Combination key
is not yet in the key set and adding its key to the set.  The Python `set`
of keys is modelled as a list used through membership. -/
def mergeGo (acc : List CaptureRecord) (keys : List ComboKey) :
    List CaptureRecord → List CaptureRecord
  | [] => acc
  | r :: rs =>
    if comboKey r ∈ keys then mergeGo acc keys rs
    else mergeGo (acc ++ [r]) (comboKey r :: keys) rs

/-- Function `merge_results` from `retry_failed_combos.py`: starting from the loaded
existing records (the file-read step is performed by the caller, which
passes the loaded list), build the set of their Combination keys, then
append the new records whose keys are absent.  All records produced by the
scripts are well-formed dicts, so the `isinstance` guards are vacuous. -/
def merge_results (existing_results new_results : List CaptureRecord) :
    List CaptureRecord :=
  mergeGo existing_results (existing_results.map comboKey) new_results

/-! ### Python `sorted(..., key=...)`

Both call sites sort by a tuple of record fields under Python's tuple
comparison: lexicographic, with `False < True` for booleans and code-point
order for strings.  This is modelled by `Ordering`-valued comparators
(booleans compared as the integers Python coerces them to, strings compared
code point by code point) and a stable insertion sort. -/

/-- Python string comparison on the underlying code points: lexicographic,
most significant character first. -/
def cmpCharList : List Char → List Char → Ordering
  | [], [] => .eq
  | [], _ :: _ => .lt
  | _ :: _, [] => .gt
  | a :: as, b :: bs => (compare a.toNat b.toNat).then (cmpCharList as bs)

/-- Python comparison of two strings. -/
def cmpStr : String → String → Ordering :=
  Ordering.byKey String.data cmpCharList

/-- Python comparison of two booleans (`False < True`, as integers). -/
def cmpBool : Bool → Bool → Ordering :=
  Ordering.byKey Bool.toNat compare

/-- The sort key comparison of the full-sweep orchestrator's pre-write sort
(`generate_key_combos.py` lines 448–453): the tuple
`(ctrl, shift, alt, key)` under Python tuple comparison. -/
def sweepCmp : CaptureRecord → CaptureRecord → Ordering :=
  compareLex (Ordering.byKey (fun r => r.ctrl) cmpBool)
    (compareLex (Ordering.byKey (fun r => r.shift) cmpBool)
      (compareLex (Ordering.byKey (fun r => r.alt) cmpBool)
        (Ordering.byKey (fun r => r.key) cmpStr)))

/-- The sort key comparison of the retry orchestrator's pre-write sort
(`retry_failed_combos.py` lines 248–249): the tuple
`(key, ctrl, shift, alt)` under Python tuple comparison. -/
def retryCmp : CaptureRecord → CaptureRecord → Ordering :=
  compareLex (Ordering.byKey (fun r => r.key) cmpStr)
    (compareLex (Ordering.byKey (fun r => r.ctrl) cmpBool)
      (compareLex (Ordering.byKey (fun r => r.shift) cmpBool)
        (Ordering.byKey (fun r => r.alt) cmpBool)))

/-- Whether `a` sorts no later than `b` under comparator `cmp`. -/
def cmpLe (cmp : α → α → Ordering) (a b : α) : Bool :=
  cmp a b != .gt

/-- Stable insertion step of Python `sorted`: place `a` before the first
element it compares `≤` to (ties keep the earlier element first, matching
Python's stable sort). -/
def pyInsert (cmp : α → α → Ordering) (a : α) : List α → List α
  | [] => [a]
  | b :: bs =>
    if cmpLe cmp a b then a :: b :: bs else b :: pyInsert cmp a bs

/-- Python `sorted(l, key=...)`, as a stable insertion sort under the tuple
comparator of the sort key. -/
def pySorted (cmp : α → α → Ordering) : List α → List α
  | [] => []
  | a :: as => pyInsert cmp a (pySorted cmp as)

/-! ### Orchestrator `main` functions

Each `main` is modelled as a pure function of an environment record holding
the inputs it reads from the outside world: whether the helper binary was
found, the content of the store file, the user's console answer, and the
per-combination outcome of the Capture Session Driver.  The result is the
process exit code paired with the record list written to the store file
(`none` when the function returns without writing). -/

/-- Environment of `generate_key_combos.main`: `cancelled` is a
`KeyboardInterrupt` at the confirmation prompt. -/
structure SweepEnv where
  exe_found : Bool
  cancelled : Bool
  capture : CaptureFun

/-- Function `main` from `generate_key_combos.py`: abort with exit code 1 when the
helper binary is absent or the user cancels at the prompt; otherwise run the
full sweep, sort by `(ctrl, shift, alt, key)`, write, and return 0. -/
def generate_main (env : SweepEnv) : Nat × Option (List CaptureRecord) :=
  if env.exe_found = false then (1, none)
  else if env.cancelled then (1, none)
  else
    let results := generate_combinations env.capture
    (0, some (pySorted sweepCmp results))

/-- Environment of `retry_failed_combos.main`: `store` is the parsed content
of `key_combinations.json` (`none` when the file is missing or unparsable),
`response` the answer typed at the `Proceed with retry? (y/n)` prompt. -/
structure RetryEnv where
  exe_found : Bool
  store : Option (List CaptureRecord)
  response : String
  capture : CaptureFun

/-- Function `load_existing_combinations` from `retry_failed_combos.py`: the set of
Combination keys of the loaded store, empty when the file is missing or
unreadable; the Python `set` is modelled as a list used through
membership. -/
def load_existing_combinations (store : Option (List CaptureRecord)) :
    List ComboKey :=
  (store.getD []).map comboKey

/-- Function `main` from `retry_failed_combos.py`: exit 1 when the helper binary is
absent; exit 0 when nothing is missing, when the user declines the prompt,
or when no new result was captured; otherwise merge, sort by
`(key, ctrl, shift, alt)`, write, and return 0. -/
def retry_main (env : RetryEnv) : Nat × Option (List CaptureRecord) :=
  if env.exe_found = false then (1, none)
  else
    let existing_combos := load_existing_combinations env.store
    let failed_combos := find_failed_combinations existing_combos
    if failed_combos.isEmpty then (0, none)
    else if pyLower (pyStrip env.response) ≠ "y" then (0, none)
    else
      let new_results := retry_failed_combinations env.capture failed_combos
      if new_results.isEmpty then (0, none)
      else
        let all_results := merge_results (env.store.getD []) new_results
        (0, some (pySorted retryCmp all_results))

/-! ### Order-theoretic facts about the comparators -/

theorem cmpCharList_nil_ne_gt : ∀ bs : List Char, cmpCharList [] bs ≠ .gt := by
  intro bs
  cases bs <;> simp [cmpCharList]

theorem cmpCharList_swap : ∀ as bs : List Char, (cmpCharList as bs).swap = cmpCharList bs as
  | [], [] => rfl
  | [], _ :: _ => rfl
  | _ :: _, [] => rfl
  | a :: as, b :: bs => by
    simp only [cmpCharList, Ordering.swap_then, cmpCharList_swap as bs,
      Batteries.OrientedCmp.symm a.toNat b.toNat]

instance : Batteries.OrientedCmp cmpCharList where
  symm a b := cmpCharList_swap a b

theorem cmpCharList_le_trans : ∀ x y z : List Char,
    cmpCharList x y ≠ .gt → cmpCharList y z ≠ .gt → cmpCharList x z ≠ .gt
  | [], _, z, _, _ => cmpCharList_nil_ne_gt z
  | _ :: _, [], _, h1, _ => by simp [cmpCharList] at h1
  | _ :: _, _ :: _, [], _, h2 => by simp [cmpCharList] at h2
  | a :: as, b :: bs, c :: cs, h1, h2 => by
    simp only [cmpCharList, ne_eq, Ordering.then_eq_gt, not_or, not_and] at h1 h2 ⊢
    refine ⟨Batteries.TransCmp.le_trans h1.1 h2.1, fun e1 e2 => ?_⟩
    match ab : compare a.toNat b.toNat with
    | .gt => exact h1.1 ab
    | .eq =>
      exact cmpCharList_le_trans as bs cs (h1.2 ab)
        (h2.2 ((Batteries.TransCmp.cmp_congr_left ab).symm.trans e1)) e2
    | .lt =>
      exact h2.1 (Batteries.OrientedCmp.cmp_eq_gt.2
        ((Batteries.TransCmp.cmp_congr_left e1).symm.trans ab))

instance : Batteries.TransCmp cmpCharList where
  le_trans h1 h2 := cmpCharList_le_trans _ _ _ h1 h2

instance : Batteries.TransCmp cmpStr := by
  unfold cmpStr; infer_instance

instance : Batteries.TransCmp cmpBool := by
  unfold cmpBool; infer_instance

instance : Batteries.TransCmp sweepCmp := by
  unfold sweepCmp; infer_instance

instance : Batteries.TransCmp retryCmp := by
  unfold retryCmp; infer_instance

theorem cmpLe_iff (cmp : α → α → Ordering) (a b : α) :
    cmpLe cmp a b = true ↔ cmp a b ≠ .gt := by
  unfold cmpLe
  cases cmp a b <;> decide

theorem cmpLe_total (cmp : α → α → Ordering) [Batteries.OrientedCmp cmp]
    (a b : α) : cmpLe cmp a b = true ∨ cmpLe cmp b a = true := by
  by_cases h : cmp a b = .gt
  · refine Or.inr ((cmpLe_iff cmp b a).2 ?_)
    rw [Batteries.OrientedCmp.cmp_eq_gt.1 h]
    simp
  · exact Or.inl ((cmpLe_iff cmp a b).2 h)

theorem cmpLe_trans (cmp : α → α → Ordering) [Batteries.TransCmp cmp]
    {a b c : α} (h1 : cmpLe cmp a b = true) (h2 : cmpLe cmp b c = true) :
    cmpLe cmp a c = true :=
  (cmpLe_iff cmp a c).2
    (Batteries.TransCmp.le_trans ((cmpLe_iff cmp a b).1 h1)
      ((cmpLe_iff cmp b c).1 h2))

theorem mem_pyInsert (cmp : α → α → Ordering) (a x : α) :
    ∀ l : List α, x ∈ pyInsert cmp a l ↔ x = a ∨ x ∈ l := by
  intro l
  induction l with
  | nil => simp [pyInsert]
  | cons b bs ih =>
    simp only [pyInsert]
    by_cases h : cmpLe cmp a b = true
    · rw [if_pos h]
      simp only [List.mem_cons]
    · rw [if_neg h]
      simp only [List.mem_cons, ih]
      tauto

theorem pyInsert_pairwise (cmp : α → α → Ordering) [Batteries.TransCmp cmp]
    (a : α) : ∀ l : List α, l.Pairwise (cmpLe cmp · · = true) →
    (pyInsert cmp a l).Pairwise (cmpLe cmp · · = true) := by
  intro l
  induction l with
  | nil => intro _; simp [pyInsert]
  | cons b bs ih =>
    intro h
    rw [List.pairwise_cons] at h
    obtain ⟨hb, hbs⟩ := h
    simp only [pyInsert]
    by_cases hab : cmpLe cmp a b = true
    · simp only [hab, if_true]
      refine List.pairwise_cons.2 ⟨?_, List.pairwise_cons.2 ⟨hb, hbs⟩⟩
      intro x hx
      rcases List.mem_cons.1 hx with heq | hx
      · rw [heq]
        exact hab
      · exact cmpLe_trans cmp hab (hb x hx)
    · simp only [hab, if_false]
      refine List.pairwise_cons.2 ⟨?_, ih hbs⟩
      intro x hx
      rcases (mem_pyInsert cmp a x bs).1 hx with heq | hx
      · rw [heq]
        rcases cmpLe_total cmp a b with h | h
        · exact absurd h hab
        · exact h
      · exact hb x hx

theorem pySorted_pairwise (cmp : α → α → Ordering) [Batteries.TransCmp cmp] :
    ∀ l : List α, (pySorted cmp l).Pairwise (cmpLe cmp · · = true) := by
  intro l
  induction l with
  | nil => simp [pySorted]
  | cons a as ih => exact pyInsert_pairwise cmp a _ ih

theorem pyInsert_length (cmp : α → α → Ordering) (a : α) :
    ∀ l : List α, (pyInsert cmp a l).length = l.length + 1 := by
  intro l
  induction l with
  | nil => rfl
  | cons b bs ih =>
    simp only [pyInsert]
    by_cases h : cmpLe cmp a b = true
    · rw [if_pos h]
      rfl
    · rw [if_neg h]
      simp [ih]

theorem pySorted_length (cmp : α → α → Ordering) :
    ∀ l : List α, (pySorted cmp l).length = l.length := by
  intro l
  induction l with
  | nil => rfl
  | cons a as ih =>
    simp only [pySorted]
    rw [pyInsert_length, ih]
    rfl

/-! ### Structure of `merge_results` -/

/-- The dedup-append loop appends, after the existing records, a selection
of the new records whose keys were not yet seen. -/
theorem mergeGo_spec : ∀ (rs acc : List CaptureRecord) (keys : List ComboKey),
    ∃ C, mergeGo acc keys rs = acc ++ C ∧
      ∀ r ∈ C, r ∈ rs ∧ comboKey r ∉ keys := by
  intro rs
  induction rs with
  | nil =>
    intro acc keys
    exact ⟨[], by simp [mergeGo], by simp⟩
  | cons r rs ih =>
    intro acc keys
    by_cases h : comboKey r ∈ keys
    · obtain ⟨C, hC, hP⟩ := ih acc keys
      refine ⟨C, ?_, ?_⟩
      · simpa [mergeGo, h] using hC
      · intro r' hr'
        exact ⟨List.mem_cons_of_mem _ (hP r' hr').1, (hP r' hr').2⟩
    · obtain ⟨C, hC, hP⟩ := ih (acc ++ [r]) (comboKey r :: keys)
      refine ⟨r :: C, ?_, ?_⟩
      · simp only [mergeGo, if_neg h]
        rw [hC, List.append_assoc]
        rfl
      · intro r' hr'
        rcases List.mem_cons.1 hr' with heq | hr'
        · rw [heq]
          exact ⟨List.mem_cons_self r rs, h⟩
        · refine ⟨List.mem_cons_of_mem _ (hP r' hr').1, fun hk => ?_⟩
          exact (hP r' hr').2 (List.mem_cons_of_mem _ hk)

/-- Every key tracked in `keys` (all of which are keys of `acc`) and every
key of the walked records ends up among the output's keys. -/
theorem mergeGo_keys : ∀ (rs acc : List CaptureRecord) (keys : List ComboKey),
    (∀ k ∈ keys, k ∈ acc.map comboKey) →
    ∀ r ∈ rs, comboKey r ∈ (mergeGo acc keys rs).map comboKey := by
  intro rs
  induction rs with
  | nil => intro acc keys _ r hr; simp at hr
  | cons r rs ih =>
    intro acc keys hsub r' hr'
    have accKeysSub : ∀ (acc2 : List CaptureRecord) (keys2 : List ComboKey)
        (k : ComboKey), k ∈ acc2.map comboKey →
        k ∈ (mergeGo acc2 keys2 rs).map comboKey := by
      intro acc2 keys2 k hk
      obtain ⟨C, hC, -⟩ := mergeGo_spec rs acc2 keys2
      rw [hC, List.map_append]
      exact List.mem_append_left _ hk
    by_cases h : comboKey r ∈ keys
    · simp only [mergeGo, if_pos h]
      rcases List.mem_cons.1 hr' with heq | hr'
      · rw [heq]
        exact accKeysSub acc keys _ (hsub _ h)
      · exact ih acc keys hsub r' hr'
    · simp only [mergeGo, if_neg h]
      rcases List.mem_cons.1 hr' with heq | hr'
      · rw [heq]
        refine accKeysSub (acc ++ [r]) _ _ ?_
        rw [List.map_append]
        exact List.mem_append_right _ (by simp)
      · refine ih (acc ++ [r]) (comboKey r :: keys) ?_ r' hr'
        intro k hk
        rcases List.mem_cons.1 hk with heq | hk
        · rw [heq, List.map_append]
          exact List.mem_append_right _ (by simp)
        · rw [List.map_append]
          exact List.mem_append_left _ (hsub _ hk)

/-- When every walked record's key is already tracked, the loop appends
nothing. -/
theorem mergeGo_all_mem : ∀ (rs acc : List CaptureRecord)
    (keys : List ComboKey), (∀ r ∈ rs, comboKey r ∈ keys) →
    mergeGo acc keys rs = acc := by
  intro rs
  induction rs with
  | nil => intro acc keys _; rfl
  | cons r rs ih =>
    intro acc keys hall
    have h : comboKey r ∈ keys := hall r (List.mem_cons_self r rs)
    simp only [mergeGo, if_pos h]
    exact ih acc keys fun r' hr' => hall r' (List.mem_cons_of_mem _ hr')

/-- The loop never introduces a key collision: if the accumulator's keys
are distinct and all tracked, the output's keys are distinct. -/
theorem mergeGo_nodup : ∀ (rs acc : List CaptureRecord) (keys : List ComboKey),
    (acc.map comboKey).Nodup → (∀ k ∈ acc.map comboKey, k ∈ keys) →
    ((mergeGo acc keys rs).map comboKey).Nodup := by
  intro rs
  induction rs with
  | nil => intro acc keys hnd _; exact hnd
  | cons r rs ih =>
    intro acc keys hnd hsub
    by_cases h : comboKey r ∈ keys
    · simp only [mergeGo, if_pos h]
      exact ih acc keys hnd hsub
    · simp only [mergeGo, if_neg h]
      refine ih (acc ++ [r]) (comboKey r :: keys) ?_ ?_
      · rw [List.map_append, List.nodup_append]
        refine ⟨hnd, List.nodup_singleton _, ?_⟩
        intro k hk hk'
        have : k = comboKey r := by simpa using hk'
        exact h (this ▸ hsub k hk)
      · intro k hk
        rw [List.map_append] at hk
        rcases List.mem_append.1 hk with hk | hk
        · exact List.mem_cons_of_mem _ (hsub k hk)
        · have : k = comboKey r := by simpa using hk
          rw [this]
          exact List.mem_cons_self _ _

/-- Decomposition of `merge_results`: the existing records verbatim,
followed by those new records whose keys do not occur earlier, and the
output keys are the union of both sides' keys. -/
theorem merge_results_spec (existing new : List CaptureRecord) :
    ∃ C, merge_results existing new = existing ++ C ∧
      (∀ r ∈ C, r ∈ new ∧ comboKey r ∉ existing.map comboKey) ∧
      (∀ k, k ∈ (merge_results existing new).map comboKey ↔
        k ∈ existing.map comboKey ∨ k ∈ new.map comboKey) := by
  unfold merge_results
  obtain ⟨C, hC, hP⟩ := mergeGo_spec new existing (existing.map comboKey)
  refine ⟨C, hC, hP, fun k => ⟨fun hk => ?_, fun hk => ?_⟩⟩
  · rw [hC, List.map_append] at hk
    rcases List.mem_append.1 hk with hk | hk
    · exact Or.inl hk
    · rcases List.mem_map.1 hk with ⟨r, hr, rfl⟩
      exact Or.inr (List.mem_map_of_mem comboKey (hP r hr).1)
  · rcases hk with hk | hk
    · rw [hC, List.map_append]
      exact List.mem_append_left _ hk
    · rcases List.mem_map.1 hk with ⟨r, hr, rfl⟩
      exact mergeGo_keys new existing (existing.map comboKey)
        (fun _ h => h) r hr

/-! ### Sample data used by concrete checks -/

/-- A record for Combination ("a", no modifiers). -/
def sampleRecA : CaptureRecord :=
  mkRetryRecord "a" false false false "A" ⟨65, some 97, some 97⟩

/-- A second record for the same Combination ("a", no modifiers) with a
different captured payload. -/
def sampleRecA2 : CaptureRecord :=
  mkRetryRecord "a" false false false "A" ⟨66, none, none⟩

/-- A record for Combination ("b", no modifiers). -/
def sampleRecB : CaptureRecord :=
  mkRetryRecord "b" false false false "B" ⟨66, none, none⟩

/-- A record for Combination ("a", Ctrl). -/
def c4RecA : CaptureRecord :=
  mkRetryRecord "a" true false false "Ctrl+A" ⟨65, none, none⟩

/-- A retry environment whose store holds only ("b", no modifiers) and whose
driver succeeds exactly on ("a", Ctrl). -/
def c4Env : RetryEnv :=
  ⟨true, some [sampleRecB], "y",
    fun k c s a => if k == "a" && c && !s && !a then some ⟨65, none, none⟩ else none⟩

/-- A retry environment in which the helper binary is present, combinations
are missing, and the user answers "n" at the confirmation prompt. -/
def cancelEnv : RetryEnv := ⟨true, some [], "n", fun _ _ _ _ => none⟩

/-- A sweep environment in which the helper binary is present, the user
confirms, and every capture fails. -/
def sweepEnvNone : SweepEnv := ⟨true, false, fun _ _ _ _ => none⟩

/-! ### Claims -/

/-- C5 (amended): the Key Mapper is total on the fixed catalog — every
`KeyName` in `US_KEYS` maps to exactly one backend representation, never the
unmapped sentinel `none` (determinism across calls is inherent in the
functional embedding).  The claim's other half — that every name outside the
catalog maps to `none` — is false; see the counterexample. -/
theorem mapper_total_on_catalog :
    ∀ k ∈ US_KEYS, (map_key_to_pynput k).isSome = true := by
  have h : US_KEYS.all (fun k => (map_key_to_pynput k).isSome) = true := by decide
  intro k hk
  exact List.all_eq_true.1 h k hk

/-- C5 witness: the theorem applied to the cataloged key "a". -/
theorem mapper_total_on_catalog_witness :
    (map_key_to_pynput "a").isSome = true :=
  mapper_total_on_catalog "a" (by decide)

/-- C5 counterexample: "f13" is outside the fixed catalog, yet the mapper
returns a `KeyCode` representation rather than the unmapped sentinel (its
`isalnum` branch accepts any alphanumeric string). -/
theorem mapper_not_none_outside_catalog :
    map_key_to_pynput "f13" = some (.keyCode "f13") ∧ "f13" ∉ US_KEYS := by
  decide

/-- In a duplicate-free list, a member is counted exactly once (stated for
the ambient `BEq` instance of the element type). -/
theorem count_eq_one_of_nodup_mem {α : Type} [BEq α] [LawfulBEq α]
    {l : List α} (hn : l.Nodup) {a : α} (ha : a ∈ l) : l.count a = 1 := by
  induction l with
  | nil => simp at ha
  | cons b bs ih =>
    rw [List.nodup_cons] at hn
    rcases List.mem_cons.1 ha with heq | ha2
    · subst heq
      rw [List.count_cons_self, List.count_eq_zero.2 hn.1]
    · have hne : a ≠ b := fun h => hn.1 (h ▸ ha2)
      rw [List.count_cons_of_ne hne]
      exact ih hn.2 ha2

/-- C6: the Combination Space Generator's output contains exactly one
occurrence of `(k, m)` for every cataloged key `k` and modifier state `m`,
and its total size is `|K| × 8 = 74 × 8 = 592`. -/
theorem combination_space_exactly_once :
    (∀ k m, k ∈ US_KEYS → m ∈ MODIFIERS →
      generate_all_combinations.count (k, m) = 1) ∧
    generate_all_combinations.length = 592 ∧
    US_KEYS.length = 74 ∧ MODIFIERS.length = 8 := by
  refine ⟨fun k m hk hm => ?_, by decide, by decide, by decide⟩
  have hprod : generate_all_combinations = US_KEYS ×ˢ MODIFIERS := rfl
  have hnd : (US_KEYS ×ˢ MODIFIERS).Nodup :=
    List.Nodup.product (by decide) (by decide)
  rw [hprod]
  exact count_eq_one_of_nodup_mem hnd (List.pair_mem_product.2 ⟨hk, hm⟩)

/-- C6 witness: the theorem applied to key "a" with no modifiers. -/
theorem combination_space_exactly_once_witness :
    generate_all_combinations.count ("a", (false, false, false)) = 1 :=
  combination_space_exactly_once.1 "a" (false, false, false)
    (by decide) (by decide)

/-- C9: a persisted record carries the helper-reported `ascii`/`unicode`
values unchanged, and its `ascii_hex`/`unicode_hex` fields are `None`
exactly when the underlying value is absent or 0 (Python's truthiness test
`if captured.get(...)` treats 0 like `None`); the retry tool builds the
record identically. -/
theorem record_hex_null_iff_zero_or_none :
    ∀ (key : String) (ctrl shift alt : Bool) (combo_str : String)
      (c : Captured),
      ((mkSweepRecord key ctrl shift alt combo_str c).ascii = c.ascii ∧
        (mkSweepRecord key ctrl shift alt combo_str c).unicode = c.unicode) ∧
      ((mkSweepRecord key ctrl shift alt combo_str c).ascii_hex = none ↔
        c.ascii = none ∨ c.ascii = some 0) ∧
      ((mkSweepRecord key ctrl shift alt combo_str c).unicode_hex = none ↔
        c.unicode = none ∨ c.unicode = some 0) ∧
      mkRetryRecord key ctrl shift alt combo_str c =
        mkSweepRecord key ctrl shift alt combo_str c := by
  intro key ctrl shift alt combo_str c
  obtain ⟨vk, a, u⟩ := c
  refine ⟨⟨rfl, rfl⟩, ?_, ?_, rfl⟩
  · cases a with
    | none => simp [mkSweepRecord, pyTruthy]
    | some n =>
      by_cases hn : n = 0
      · subst hn
        simp [mkSweepRecord, pyTruthy]
      · simp [mkSweepRecord, pyTruthy, hn]
  · cases u with
    | none => simp [mkSweepRecord, pyTruthy]
    | some n =>
      by_cases hn : n = 0
      · subst hn
        simp [mkSweepRecord, pyTruthy]
      · simp [mkSweepRecord, pyTruthy, hn]

/-- C10: the two independent implementations of the human-readable
combination label — the inline construction in the full-sweep
orchestrator's `generate_combinations` and the retry tool's
`format_combo_str` — produce the identical string on every input. -/
theorem combo_label_implementations_agree :
    ∀ (key : String) (ctrl shift alt : Bool),
      sweep_combo_label key ctrl shift alt =
        format_combo_str key ctrl shift alt :=
  fun _ _ _ _ => rfl

/-- C1 (amended): `merge` returns the union of both lists keyed by
Combination identity, but on a key present in both lists the record from
the EXISTING list is the one that appears in the output — the existing
records are kept verbatim and only new records with fresh keys are appended
(first-write-wins, not last-write-wins). -/
theorem merge_union_existing_wins :
    ∀ A B : List CaptureRecord,
      (∀ k, k ∈ (merge_results A B).map comboKey ↔
        k ∈ A.map comboKey ∨ k ∈ B.map comboKey) ∧
      ∃ C, merge_results A B = A ++ C ∧
        ∀ r ∈ C, r ∈ B ∧ comboKey r ∉ A.map comboKey := by
  intro A B
  obtain ⟨C, hC, hP, hU⟩ := merge_results_spec A B
  exact ⟨hU, C, hC, hP⟩

/-- C1 witness: the theorem applied to one existing and one new record with
distinct keys — the new record's key reaches the output. -/
theorem merge_union_existing_wins_witness :
    comboKey sampleRecB ∈
      (merge_results [sampleRecA] [sampleRecB]).map comboKey :=
  ((merge_union_existing_wins [sampleRecA] [sampleRecB]).1
    (comboKey sampleRecB)).2 (Or.inr (by decide))

/-- C1 counterexample: both lists hold a record for the same Combination
("a", no modifiers); the output keeps the existing record and the
new-records entry does not appear, contradicting last-write-wins. -/
theorem merge_new_record_does_not_win :
    comboKey sampleRecA = comboKey sampleRecA2 ∧
    merge_results [sampleRecA] [sampleRecA2] = [sampleRecA] ∧
    sampleRecA2 ∉ merge_results [sampleRecA] [sampleRecA2] := by
  decide

/-- C7: `merge` is idempotent — merging the same new records into an
already-merged store changes nothing. -/
theorem merge_results_idempotent :
    ∀ A B : List CaptureRecord,
      merge_results (merge_results A B) B = merge_results A B := by
  intro A B
  show mergeGo (merge_results A B) ((merge_results A B).map comboKey) B =
    merge_results A B
  refine mergeGo_all_mem B _ _ ?_
  intro r hr
  exact mergeGo_keys B A (A.map comboKey) (fun _ h => h) r hr

/-- C8 (amended): `merge` never lets a new record collide with an already
present key, so when the existing list's keys are duplicate-free the output
has at most one record per Combination key; but duplicate keys already
inside the existing list are passed through untouched (see the
counterexample), so uniqueness is preserved, not enforced. -/
theorem merge_preserves_key_uniqueness :
    ∀ A B : List CaptureRecord, (A.map comboKey).Nodup →
      ((merge_results A B).map comboKey).Nodup := by
  intro A B h
  exact mergeGo_nodup B A (A.map comboKey) h (fun _ h => h)

/-- C8 witness: the theorem applied to concrete duplicate-free inputs. -/
theorem merge_preserves_key_uniqueness_witness :
    ((merge_results [sampleRecA] [sampleRecB]).map comboKey).Nodup :=
  merge_preserves_key_uniqueness [sampleRecA] [sampleRecB] (by decide)

/-- C8 counterexample: an existing list that already contains two records
for Combination ("a", no modifiers) merges (with no new records) into an
output that still contains that key twice — `merge` does not enforce
uniqueness on arbitrary inputs. -/
theorem merge_keeps_existing_duplicates :
    ((merge_results [sampleRecA, sampleRecA2] []).map comboKey).count
      (comboKey sampleRecA) = 2 := by
  decide

/-- C2: the retry orchestrator's missing set is exactly the full
combination space minus the loaded store's keys (so no already-present
Combination is ever re-captured), and the merged store — also after the
length-preserving pre-write sort — is never smaller than the loaded
one. -/
theorem retry_diff_exact_and_store_monotone :
    ∀ (existing : List ComboKey) (store new : List CaptureRecord),
      (∀ c ∈ find_failed_combinations existing, c ∉ existing) ∧
      (∀ c, c ∈ find_failed_combinations existing ↔
        c ∈ generate_all_combinations ∧ c ∉ existing) ∧
      store.length ≤ (merge_results store new).length ∧
      (pySorted retryCmp (merge_results store new)).length =
        (merge_results store new).length := by
  intro existing store new
  have hmem : ∀ c, c ∈ find_failed_combinations existing ↔
      c ∈ generate_all_combinations ∧ c ∉ existing := by
    intro c
    unfold find_failed_combinations
    rw [List.mem_filter]
    simp
  refine ⟨fun c hc => ((hmem c).1 hc).2, hmem, ?_, pySorted_length _ _⟩
  obtain ⟨C, hC, -, -⟩ := merge_results_spec store new
  rw [hC, List.length_append]
  exact Nat.le_add_right _ _

/-- C2 witness: the theorem applied to a store holding ("a", no
modifiers) — the missing Combination ("a", Ctrl) is not in the store. -/
theorem retry_diff_exact_witness :
    (("a", true, false, false) : ComboKey) ∉
      ([("a", false, false, false)] : List ComboKey) :=
  (retry_diff_exact_and_store_monotone [("a", false, false, false)] [] []).1
    ("a", true, false, false) (by decide)

/-- The exit code of the full-sweep `main`, as a function of its two abort
conditions. -/
theorem generate_main_code (e : SweepEnv) :
    (generate_main e).1 =
      if e.exe_found = false then 1 else if e.cancelled then 1 else 0 := by
  unfold generate_main
  by_cases h1 : e.exe_found = false
  · rw [if_pos h1, if_pos h1]
  · rw [if_neg h1, if_neg h1]
    by_cases h2 : e.cancelled
    · rw [if_pos h2, if_pos h2]
    · rw [if_neg h2, if_neg h2]

/-- The exit code of the retry `main`: 1 exactly when the helper binary is
absent; every other path — including user cancellation — returns 0. -/
theorem retry_main_code (e : RetryEnv) :
    (retry_main e).1 = if e.exe_found = false then 1 else 0 := by
  unfold retry_main
  by_cases h1 : e.exe_found = false
  · rw [if_pos h1, if_pos h1]
  · rw [if_neg h1, if_neg h1]
    dsimp only
    split
    · rfl
    · split
      · rfl
      · split
        · rfl
        · rfl

/-- C3 (amended): the full-sweep orchestrator exits 1 exactly when the
helper binary is absent or the user cancels, and 0 otherwise; the retry
orchestrator exits 1 exactly when the helper binary is absent — on user
cancellation it exits 0, not 1 (see the counterexample). -/
theorem orchestrator_exit_codes :
    ∀ (e1 : SweepEnv) (e2 : RetryEnv),
      ((generate_main e1).1 = 1 ↔
        e1.exe_found = false ∨ e1.cancelled = true) ∧
      ((generate_main e1).1 = 0 ↔
        ¬(e1.exe_found = false ∨ e1.cancelled = true)) ∧
      ((retry_main e2).1 = 1 ↔ e2.exe_found = false) ∧
      ((retry_main e2).1 = 0 ↔ e2.exe_found = true) := by
  intro e1 e2
  rw [generate_main_code, retry_main_code]
  cases h1 : e1.exe_found <;> cases h2 : e1.cancelled <;>
    cases h3 : e2.exe_found <;> simp

/-- C3 witness: the theorem applied to a retry environment with the helper
binary absent. -/
theorem orchestrator_exit_codes_witness :
    (retry_main ⟨false, none, "", fun _ _ _ _ => none⟩).1 = 1 :=
  (orchestrator_exit_codes ⟨false, false, fun _ _ _ _ => none⟩
    ⟨false, none, "", fun _ _ _ _ => none⟩).2.2.1.mpr rfl

/-- C3 counterexample: a retry run with the helper present and 592 missing
combinations in which the user answers "n" at the confirmation prompt —
the process exits 0, not 1 as the claim states. -/
theorem retry_user_cancel_exits_zero :
    cancelEnv.exe_found = true ∧
    (find_failed_combinations
      (load_existing_combinations cancelEnv.store)).isEmpty = false ∧
    pyLower (pyStrip cancelEnv.response) ≠ "y" ∧
    retry_main cancelEnv = (0, none) := by
  decide

/-- C4 (amended): each orchestrator sorts the record list before writing,
but by its own key order — the full sweep by the canonical
`(ctrl, shift, alt, key)` tuple, the retry tool by `(key, ctrl, shift,
alt)` with the key name first, not last (see the counterexample). -/
theorem orchestrators_sort_before_write :
    ∀ (e1 : SweepEnv) (e2 : RetryEnv) (out1 out2 : List CaptureRecord),
      ((generate_main e1).2 = some out1 →
        out1.Pairwise (cmpLe sweepCmp · · = true)) ∧
      ((retry_main e2).2 = some out2 →
        out2.Pairwise (cmpLe retryCmp · · = true)) := by
  intro e1 e2 out1 out2
  constructor
  · intro h
    unfold generate_main at h
    split at h
    · simp at h
    · split at h
      · simp at h
      · obtain rfl : pySorted sweepCmp (generate_combinations e1.capture) =
            out1 := by simpa using h
        exact pySorted_pairwise sweepCmp _
  · intro h
    unfold retry_main at h
    split at h
    · simp at h
    · dsimp only at h
      split at h
      · simp at h
      · split at h
        · simp at h
        · split at h
          · simp at h
          · obtain rfl : pySorted retryCmp
                (merge_results (e2.store.getD [])
                  (retry_failed_combinations e2.capture
                    (find_failed_combinations
                      (load_existing_combinations e2.store)))) = out2 := by
              simpa using h
            exact pySorted_pairwise retryCmp _

/-- C4 witness: the theorem applied to a completed sweep run (writing the
empty record list) and the retry run of `c4Env` (writing two records). -/
theorem orchestrators_sort_before_write_witness :
    (([] : List CaptureRecord).Pairwise (cmpLe sweepCmp · · = true)) ∧
    (([c4RecA, sampleRecB] : List CaptureRecord).Pairwise
      (cmpLe retryCmp · · = true)) :=
  ⟨(orchestrators_sort_before_write sweepEnvNone c4Env []
      [c4RecA, sampleRecB]).1 (by decide),
   (orchestrators_sort_before_write sweepEnvNone c4Env []
      [c4RecA, sampleRecB]).2 (by decide)⟩

/-- C4 counterexample: the retry run of `c4Env` writes the store as
`[("a", Ctrl), ("b", no modifiers)]`, a list that is NOT sorted by the
canonical `(ctrl, shift, alt, key)` order the claim states (the canonical
order would put the unmodified "b" record first). -/
theorem retry_write_not_canonical_order :
    (retry_main c4Env).2 = some [c4RecA, sampleRecB] ∧
    ¬ (([c4RecA, sampleRecB] : List CaptureRecord).Pairwise
      (cmpLe sweepCmp · · = true)) := by
  decide

end Rift
